import Mathlib

/-!
Shallow embedding of the custom-element adapter utilities of this
repository: the reactive-framework (Vue) wrapper in `src/unnamed/part_000`
and the React wrapper in
`src/_components/react/react-custom-element-wrapper.js`, together with
proofs about attribute/property coercion, the props-mapping invariants,
event re-dispatch, and the lifecycle callbacks.
-/

namespace CEWrap

/-- JavaScript numbers, modelled over the rationals with explicit markers
for NaN and the two infinities. Equality on this type is SameValueZero-like
(`nan = nan` holds), matching `Array.prototype.includes`; IEEE rounding is
outside the scope of this embedding and no verified claim depends on it. -/
inductive JNum where
  | nan
  | posInf
  | negInf
  | val (q : ℚ)
deriving DecidableEq, Repr

/-- JavaScript values as far as the adapters manipulate them: primitives,
plain objects (ordered own-property lists), arrays, and the event-callback
functions the React wrapper stores in its props object (identified by the
event name they dispatch). -/
inductive JsValue where
  | undef
  | null
  | bool (b : Bool)
  | num (n : JNum)
  | str (s : String)
  | obj (fields : List (String × JsValue))
  | arr (elems : List JsValue)
  | callback (eventName : String)

/-- Keys of an ordered association list, in order: a JS object's own
enumerable keys. -/
def keysOf (l : List (String × α)) : List String :=
  l.map Prod.fst

/-- Lookup in an ordered association list: a JS property read, `undefined`
becoming `none`. -/
def lookupKey (l : List (String × α)) (k : String) : Option α :=
  match l with
  | [] => none
  | (k2, v) :: rest => if k2 = k then some v else lookupKey rest k

/-- JS object assignment `o[k] = v`: updates the value in place when the
key exists (key order preserved), appends the new key otherwise. -/
def setKey (l : List (String × α)) (k : String) (v : α) : List (String × α) :=
  match l with
  | [] => [(k, v)]
  | (k2, v2) :: rest =>
    if k2 = k then (k2, v) :: rest else (k2, v2) :: setKey rest k v

/-- Membership test on attribute / key lists. -/
def hasKey (l : List (String × α)) (k : String) : Bool :=
  (lookupKey l k).isSome

/-- Modelled from the spec: `camelize` from the repository's missing
`./utils.js` module ("Name-case converters: pure functions mapping between
hyphenated attribute names and camelCased property names"): a hyphen
followed by a word character is dropped and that character uppercased. -/
def camelizeChars : List Char → List Char
  | [] => []
  | '-' :: c :: rest =>
    if c.isAlphanum || c = '_' then c.toUpper :: camelizeChars rest
    else '-' :: camelizeChars (c :: rest)
  | c :: rest => c :: camelizeChars rest

/-- String version of [[camelizeChars]]. -/
def camelize (s : String) : String :=
  String.mk (camelizeChars s.toList)

/-- Modelled from the spec: `hyphenate` from the missing `./utils.js` (the
inverse name-case converter): an ASCII uppercase letter preceded by a word
character becomes a hyphen followed by its lowercase form. -/
def hyphenateChars (prev : Option Char) : List Char → List Char
  | [] => []
  | c :: rest =>
    if c.isUpper && (match prev with
        | some p => p.isAlphanum || p = '_'
        | none => false) then
      '-' :: c.toLower :: hyphenateChars (some c) rest
    else
      c :: hyphenateChars (some c) rest

/-- String version of [[hyphenateChars]]. -/
def hyphenate (s : String) : String :=
  String.mk (hyphenateChars none s.toList)

/-- The `capitalize` helper the Vue wrapper imports from the shared utility
library: uppercases the first character. -/
def capitalize (s : String) : String :=
  match s.toList with
  | [] => s
  | c :: rest => String.mk (c.toUpper :: rest)

/-- The `toHandlerKey` helper the Vue wrapper imports from the shared
utility library: prefixes a non-empty event name with `on` and capitalizes
it; the empty string maps to itself. -/
def toHandlerKey (s : String) : String :=
  if s = "" then s else ("on") ++ capitalize s

/-- JS whitespace (space, tab, line terminators, vertical tab, form feed,
no-break space, BOM) as trimmed by `ToNumber` and skipped by
`parseFloat`. -/
def isJsWs (c : Char) : Bool :=
  c = ' ' || c = '\t' || c = '\n' || c = '\r' ||
  c.toNat = 11 || c.toNat = 12 || c.toNat = 160 ||
  c.toNat = 8232 || c.toNat = 8233 || c.toNat = 65279

/-- Drops leading JS whitespace. -/
def skipWsChars (cs : List Char) : List Char := cs.dropWhile isJsWs

/-- Decimal digit test ([0-9]). -/
def isDigitChar (c : Char) : Bool := '0' ≤ c && c ≤ '9'

/-- Numeric value of a decimal digit. -/
def digitVal (c : Char) : ℕ := c.toNat - ('0').toNat

/-- Longest leading run of decimal digits: accumulated value, digit count,
and unconsumed input. -/
def takeDigitsAux (acc count : ℕ) : List Char → ℕ × ℕ × List Char
  | [] => (acc, count, [])
  | c :: rest =>
    if isDigitChar c then takeDigitsAux (10 * acc + digitVal c) (count + 1) rest
    else (acc, count, c :: rest)

/-- Exponent part `[eE][+-]?digits` of a JS decimal literal: the exponent
and remaining input, or `none` when absent or ill-formed (in which case the
decimal parse stops before the `e`). -/
def parseExponent (cs : List Char) : Option (ℤ × List Char) :=
  match cs with
  | [] => none
  | c :: rest =>
    if c = 'e' || c = 'E' then
      let (neg, r1) : Bool × List Char :=
        match rest with
        | '+' :: r => (false, r)
        | '-' :: r => (true, r)
        | r => (false, r)
      let (v, n, r2) := takeDigitsAux 0 0 r1
      if n = 0 then none
      else some (if neg then -(v : ℤ) else (v : ℤ), r2)
    else none

/-- Longest prefix of the input that is a signed JS decimal literal or
signed `Infinity`: its exact value and the unconsumed input, or `none` when
no digits are consumed. Shared by the embeddings of `parseFloat` (prefix
semantics) and `Number(string)` (whole-string semantics). -/
def parseSignedDecimal (cs : List Char) : Option (JNum × List Char) :=
  let (neg, cs1) : Bool × List Char :=
    match cs with
    | '+' :: r => (false, r)
    | '-' :: r => (true, r)
    | r => (false, r)
  match cs1 with
  | 'I' :: 'n' :: 'f' :: 'i' :: 'n' :: 'i' :: 't' :: 'y' :: r =>
    some (if neg then JNum.negInf else JNum.posInf, r)
  | cs2 =>
    let (ip, ic, r1) := takeDigitsAux 0 0 cs2
    let (fp, fc, r2) : ℕ × ℕ × List Char :=
      match r1 with
      | '.' :: rf => takeDigitsAux 0 0 rf
      | _ => (0, 0, r1)
    if ic = 0 && fc = 0 then none
    else
      let mant : ℚ := (ip : ℚ) + (fp : ℚ) / ((10 : ℚ) ^ fc)
      let (value, r3) : ℚ × List Char :=
        match parseExponent r2 with
        | some (e, r) => (mant * (10 : ℚ) ^ e, r)
        | none => (mant, r2)
      some (JNum.val (if neg then -value else value), r3)

/-- JS `parseFloat` on a string: skips leading whitespace, parses the
longest prefix that is a signed decimal literal or `Infinity`, and yields
NaN when nothing numeric is consumed. -/
def jsParseFloat (s : String) : JNum :=
  match parseSignedDecimal (skipWsChars s.toList) with
  | some (v, _) => v
  | none => JNum.nan

/-- Value of a radix digit (0-9, a-f, A-F), independent of radix. -/
def radixDigitVal (c : Char) : Option ℕ :=
  if isDigitChar c then some (digitVal c)
  else if 'a' ≤ c && c ≤ 'f' then some (c.toNat - ('a').toNat + 10)
  else if 'A' ≤ c && c ≤ 'F' then some (c.toNat - ('A').toNat + 10)
  else none

/-- Whole-input digit run in a given radix; `none` when empty or when any
character is not a digit of the radix. -/
def radixAllAux (radix acc count : ℕ) : List Char → Option ℕ
  | [] => if count = 0 then none else some acc
  | c :: rest =>
    match radixDigitVal c with
    | some d =>
      if d < radix then radixAllAux radix (radix * acc + d) (count + 1) rest
      else none
    | none => none

/-- `0x` / `0o` / `0b` radix literal body under `Number(string)`. -/
def radixAll (radix : ℕ) (cs : List Char) : JNum :=
  match radixAllAux radix 0 0 cs with
  | some v => JNum.val (v : ℚ)
  | none => JNum.nan

/-- JS `Number(string)` (`ToNumber` on a string, used by `isNaN` and the
unary `+` in the React wrapper's `convert`): the whole trimmed string must
be one numeric literal (signed decimal, signed `Infinity`, or an unsigned
`0x`/`0o`/`0b` radix literal); the empty trimmed string is `0`; anything
else is NaN. -/
def jsNumberOfString (s : String) : JNum :=
  let cs := ((skipWsChars s.toList).reverse.dropWhile isJsWs).reverse
  match cs with
  | [] => JNum.val 0
  | '0' :: c :: rest =>
    if c = 'x' || c = 'X' then radixAll 16 rest
    else if c = 'o' || c = 'O' then radixAll 8 rest
    else if c = 'b' || c = 'B' then radixAll 2 rest
    else
      match parseSignedDecimal cs with
      | some (v, []) => v
      | _ => JNum.nan
  | _ =>
    match parseSignedDecimal cs with
    | some (v, []) => v
    | _ => JNum.nan

/-- JS `isNaN` on an already-converted number. -/
def jsIsNaN (n : JNum) : Bool :=
  match n with
  | JNum.nan => true
  | _ => false

/-- Decimal rendering of a rational for JS `ToString`: exact for integers
(the only case the adapters exercise); IEEE shortest-round-trip formatting
of non-integers is out of scope. -/
def ratToString (q : ℚ) : String :=
  if q.den = 1 then toString q.num
  else toString q.num ++ ("/") ++ toString q.den

/-- String form of a JS number. -/
def jnumToString (n : JNum) : String :=
  match n with
  | JNum.nan => "NaN"
  | JNum.posInf => "Infinity"
  | JNum.negInf => "-Infinity"
  | JNum.val q => ratToString q

mutual

/-- JS `ToString` as far as the adapters exercise it (attribute reflection
and coercion of assigned values): arrays join their element strings with
commas, plain objects print as `[object Object]`. -/
def jsValueToString : JsValue → String
  | JsValue.undef => "undefined"
  | JsValue.null => "null"
  | JsValue.bool b => if b then "true" else "false"
  | JsValue.num n => jnumToString n
  | JsValue.str s => s
  | JsValue.obj _ => "[object Object]"
  | JsValue.arr es => String.intercalate (",") (jsValuesToString es)
  | JsValue.callback _ => "[function]"

/-- Element-wise [[jsValueToString]]. -/
def jsValuesToString : List JsValue → List String
  | [] => []
  | v :: rest => jsValueToString v :: jsValuesToString rest

end

/-- JSON whitespace (as accepted by `JSON.parse`). -/
def isJsonWs (c : Char) : Bool :=
  c = ' ' || c = '\t' || c = '\n' || c = '\r'

/-- Drops leading JSON whitespace. -/
def skipJsonWs (cs : List Char) : List Char := cs.dropWhile isJsonWs

/-- Four hex digits of a `\u` escape. -/
def parseHex4 (cs : List Char) : Option (ℕ × List Char) :=
  match cs with
  | a :: b :: c :: d :: rest =>
    match radixDigitVal a, radixDigitVal b, radixDigitVal c, radixDigitVal d with
    | some va, some vb, some vc, some vd =>
      some (((va * 16 + vb) * 16 + vc) * 16 + vd, rest)
    | _, _, _, _ => none
  | _ => none

/-- Body of a JSON string after the opening quote: the decoded characters
and the input after the closing quote. Surrogate `\u` escapes decode
through `Char.ofNat` (out of scope for the claims). -/
def parseJsonString (fuel : ℕ) (cs : List Char) : Option (List Char × List Char) :=
  match fuel with
  | 0 => none
  | fuel + 1 =>
    match cs with
    | [] => none
    | '"' :: rest => some ([], rest)
    | '\\' :: e :: rest =>
      let dec : Option (Char × List Char) :=
        if e = '"' then some ('"', rest)
        else if e = '\\' then some ('\\', rest)
        else if e = '/' then some ('/', rest)
        else if e = 'b' then some (Char.ofNat 8, rest)
        else if e = 'f' then some (Char.ofNat 12, rest)
        else if e = 'n' then some ('\n', rest)
        else if e = 'r' then some ('\r', rest)
        else if e = 't' then some ('\t', rest)
        else if e = 'u' then
          match parseHex4 rest with
          | some (v, r) => some (Char.ofNat v, r)
          | none => none
        else none
      match dec with
      | some (c, r) =>
        match parseJsonString fuel r with
        | some (s, r2) => some (c :: s, r2)
        | none => none
      | none => none
    | c :: rest =>
      if c.toNat < 32 then none
      else
        match parseJsonString fuel rest with
        | some (s, r2) => some (c :: s, r2)
        | none => none

/-- JSON number grammar
`-? (0 | [1-9][0-9]*) (. [0-9]+)? ([eE][+-]?[0-9]+)?`, as an exact
rational. -/
def parseJsonNumber (cs : List Char) : Option (ℚ × List Char) :=
  let (neg, cs1) : Bool × List Char :=
    match cs with
    | '-' :: r => (true, r)
    | r => (false, r)
  let (ip, ic, r1) := takeDigitsAux 0 0 cs1
  if ic = 0 then none
  else if ic > 1 && (match cs1 with | '0' :: _ => true | _ => false) then none
  else
    let fracRes : Option (ℕ × ℕ × List Char) :=
      match r1 with
      | '.' :: rf =>
        let (fv, fn, r2) := takeDigitsAux 0 0 rf
        if fn = 0 then none else some (fv, fn, r2)
      | _ => some (0, 0, r1)
    match fracRes with
    | none => none
    | some (fv, fn, r2) =>
      let mant : ℚ := (ip : ℚ) + (fv : ℚ) / ((10 : ℚ) ^ fn)
      let (value, r3) : ℚ × List Char :=
        match parseExponent r2 with
        | some (e, r) => (mant * (10 : ℚ) ^ e, r)
        | none => (mant, r2)
      some (if neg then -value else value, r3)

mutual

/-- Recursive-descent JSON value parser (fuel-indexed for termination; the
nesting depth is bounded by the input length), embedding the grammar the
browser's `JSON.parse` accepts: `true`, `false`, `null`, strings, numbers,
arrays and objects. -/
def parseJsonValue (fuel : ℕ) (cs : List Char) : Option (JsValue × List Char) :=
  match fuel with
  | 0 => none
  | fuel + 1 =>
    match skipJsonWs cs with
    | 't' :: 'r' :: 'u' :: 'e' :: r => some (JsValue.bool true, r)
    | 'f' :: 'a' :: 'l' :: 's' :: 'e' :: r => some (JsValue.bool false, r)
    | 'n' :: 'u' :: 'l' :: 'l' :: r => some (JsValue.null, r)
    | '"' :: r =>
      match parseJsonString (r.length + 1) r with
      | some (s, r2) => some (JsValue.str (String.mk s), r2)
      | none => none
    | '[' :: r =>
      match skipJsonWs r with
      | ']' :: r2 => some (JsValue.arr [], r2)
      | r2 =>
        match parseJsonElements fuel r2 with
        | some (vs, r3) => some (JsValue.arr vs, r3)
        | none => none
    | '{' :: r =>
      match skipJsonWs r with
      | '}' :: r2 => some (JsValue.obj [], r2)
      | r2 =>
        match parseJsonMembers fuel r2 with
        | some (ms, r3) => some (JsValue.obj ms, r3)
        | none => none
    | cs2 =>
      match parseJsonNumber cs2 with
      | some (q, r) => some (JsValue.num (JNum.val q), r)
      | none => none

/-- Non-empty array tail `value (, value)* ]`. -/
def parseJsonElements (fuel : ℕ) (cs : List Char) : Option (List JsValue × List Char) :=
  match fuel with
  | 0 => none
  | fuel + 1 =>
    match parseJsonValue fuel cs with
    | none => none
    | some (v, r) =>
      match skipJsonWs r with
      | ',' :: r2 =>
        match parseJsonElements fuel r2 with
        | some (vs, r3) => some (v :: vs, r3)
        | none => none
      | ']' :: r2 => some ([v], r2)
      | _ => none

/-- Non-empty object tail `"key" : value (, "key" : value)* \x7d`.
Duplicate keys are kept in order here where the browser keeps the last;
no claim depends on that corner. -/
def parseJsonMembers (fuel : ℕ) (cs : List Char) : Option (List (String × JsValue) × List Char) :=
  match fuel with
  | 0 => none
  | fuel + 1 =>
    match skipJsonWs cs with
    | '"' :: r =>
      match parseJsonString (r.length + 1) r with
      | none => none
      | some (k, r2) =>
        match skipJsonWs r2 with
        | ':' :: r3 =>
          match parseJsonValue fuel r3 with
          | none => none
          | some (v, r4) =>
            match skipJsonWs r4 with
            | ',' :: r5 =>
              match parseJsonMembers fuel r5 with
              | some (ms, r6) => some ((String.mk k, v) :: ms, r6)
              | none => none
            | '}' :: r5 => some ([(String.mk k, v)], r5)
            | _ => none
        | _ => none
    | _ => none

end

/-- The browser's `JSON.parse`: `some` of the parsed value, or `none` where
the browser throws a SyntaxError. The whole input must be a single JSON
value framed by whitespace. -/
def jsonParse (s : String) : Option JsValue :=
  let cs := s.toList
  match parseJsonValue (cs.length + 1) cs with
  | some (v, r) => if (skipJsonWs r).isEmpty then some v else none
  | none => none

/-- The regex test `/^\x7b.*\x7d/.exec(attrValue)` in the React wrapper's
`convert`: the string starts with an opening brace and a closing brace
occurs after it on the same line (`.` does not match line terminators). -/
def jsonLikeRegex (s : String) : Bool :=
  match s.toList with
  | c :: rest =>
    c = '{' &&
    ((rest.takeWhile fun ch =>
        !(ch = '\n' || ch = '\r' || ch.toNat = 8232 || ch.toNat = 8233)).contains '}')
  | [] => false

/-- Result record `\x7bname, value\x7d` of the React wrapper's
`convert`. -/
structure ConvertResult where
  name : String
  value : JsValue

/-- The React wrapper's `convert(attrName, attrValue)`
(react-custom-element-wrapper.js lines 77-88): `'true'`/`'false'` become
booleans; a non-empty string that `isNaN` accepts becomes a number via the
unary `+`; a string matching the JSON-looking regex goes through
`JSON.parse`, whose SyntaxError on invalid JSON is the `Except.error` case;
every other string passes through unchanged. -/
def convert (attrName attrValue : String) : Except Unit ConvertResult :=
  if attrValue = "true" || attrValue = "false" then
    Except.ok ⟨attrName, JsValue.bool (attrValue = "true")⟩
  else if !(jsIsNaN (jsNumberOfString attrValue)) && attrValue ≠ "" then
    Except.ok ⟨attrName, JsValue.num (jsNumberOfString attrValue)⟩
  else if jsonLikeRegex attrValue then
    match jsonParse attrValue with
    | some v => Except.ok ⟨attrName, v⟩
    | none => Except.error ()
  else
    Except.ok ⟨attrName, JsValue.str attrValue⟩

/-- The React wrapper's `getProps(attributes)`: every attribute except
`style` is converted and folded into a props object, later attributes
overwriting earlier ones in place. Propagates `convert`'s possible
SyntaxError. -/
def getProps (attributes : List (String × String)) :
    Except Unit (List (String × JsValue)) :=
  (attributes.filter fun a => a.1 != "style").foldlM
    (fun props a => do
      let r ← convert a.1 a.2
      pure (setKey props r.name r.value))
    []

/-- The regex test `/on([a-z].*)/.exec(name)` in `getEvents`: the name
contains `on` followed by an ASCII lowercase letter somewhere (the regex is
not anchored). -/
def hasOnEventName : List Char → Bool
  | 'o' :: 'n' :: c :: rest =>
    ('a' ≤ c && c ≤ 'z') || hasOnEventName ('n' :: c :: rest)
  | _ :: rest => hasOnEventName rest
  | [] => false

/-- The React wrapper's `getEvents()`: each attribute whose name matches
the `on...` regex becomes an entry mapping that attribute name to the
event callback for that name. -/
def getEvents (attributes : List (String × String)) : List (String × JsValue) :=
  (attributes.filter fun a => hasOnEventName a.1.toList).foldl
    (fun events a => setKey events a.1 (JsValue.callback a.1))
    []

/-- A dispatched DOM `CustomEvent`, reduced to its name and its `detail`
payload. -/
structure CustomEventModel where
  name : String
  detail : JsValue

/-- JS object spread `\x7b...v\x7d`: own enumerable entries of an object,
indexed entries of an array or string, and the empty object for all
primitives — the semantics of `\x7b...payload\x7d` in
`getEventCallback`. -/
def spreadToObj : JsValue → List (String × JsValue)
  | JsValue.obj fs => fs
  | JsValue.arr es => es.enum.map fun p => (toString p.1, p.2)
  | JsValue.str s =>
    s.toList.enum.map fun p => (toString p.1, JsValue.str (String.mk [p.2]))
  | _ => []

/-- The React wrapper's `getEventCallback(eventName)`: the returned handler
takes a single payload and dispatches on the host a `CustomEvent` of that
name whose `detail` is the object-spread copy of the payload. -/
def getEventCallback (eventName : String) (payload : JsValue) : CustomEventModel :=
  ⟨eventName, JsValue.obj (spreadToObj payload)⟩

/-- Actions the React wrapper performs against the React library, recorded
as a trace: `unmountComponentAtNode(this)` and `render` with the final
props object. -/
inductive ReactAction where
  | unmountAtNode
  | renderComponent (props : List (String × JsValue))

/-- State of a `ReactCustomElement` host node: its attributes, its
`innerHTML`, and the trace of React mount/unmount actions performed so
far. -/
structure ReactElement where
  attributes : List (String × String)
  innerHTML : String
  trace : List ReactAction

/-- JS object spread-merge `\x7b...a, ...b\x7d`. -/
def mergeObj (a b : List (String × α)) : List (String × α) :=
  b.foldl (fun acc kv => setKey acc kv.1 kv.2) a

/-- The props object built in `ReactCustomElement.mount()`: converted
attributes, then event callbacks, then the `children` key holding the
result of `parseHtmlToReact` on the current `innerHTML` (the base class's
`parseHtmlToReact` is the identity on the HTML string). -/
def reactMountProps (el : ReactElement) : Except Unit (List (String × JsValue)) := do
  let ps ← getProps el.attributes
  pure (setKey (mergeObj ps (getEvents el.attributes)) ("children")
    (JsValue.str el.innerHTML))

/-- `mount()`: derives props from the current attributes and renders the
wrapped component into the node (recorded on the trace); a `convert`
SyntaxError propagates. -/
def reactMount (el : ReactElement) : Except Unit ReactElement := do
  let props ← reactMountProps el
  pure { el with trace := el.trace ++ [ReactAction.renderComponent props] }

/-- `unmount()`: `unmountComponentAtNode(this)`. -/
def reactUnmount (el : ReactElement) : ReactElement :=
  { el with trace := el.trace ++ [ReactAction.unmountAtNode] }

/-- `update()`: a full unmount followed by a fresh mount. -/
def reactUpdate (el : ReactElement) : Except Unit ReactElement :=
  reactMount (reactUnmount el)

/-- Kinds of DOM mutation records delivered by a MutationObserver. -/
inductive MutationType where
  | attributes
  | childList
  | characterData
deriving DecidableEq, Repr

/-- A DOM mutation record, reduced to the fields the wrappers consult:
its type, whether its target is the host element itself, and the mutated
attribute's name. -/
structure MutationRecord where
  type : MutationType
  targetIsSelf : Bool
  attributeName : Option String

/-- The React wrapper's MutationObserver callback `() => this.update()`:
the delivered records are ignored; every batch triggers a full update. -/
def reactObserverCallback (records : List MutationRecord) (el : ReactElement) :
    Except Unit ReactElement :=
  let _ := records
  reactUpdate el

/-- A declared prop type tag: one of the constructor values the installed
setter's `switch` compares against (`Boolean` / `Number` / `String`), or
any other constructor function (`Object`, `Array`, a custom class),
identified by name. -/
inductive TypeTag where
  | boolean
  | number
  | stringTag
  | otherCtor (ctorName : String)
deriving DecidableEq, Repr

/-- The `type` field of a normalized prop option: a single constructor or
an array of constructors. -/
inductive TypeSpec where
  | single (t : TypeTag)
  | many (ts : List TypeTag)
deriving DecidableEq, Repr

/-- A normalized prop option record (`\x7b type: ... \x7d`), the type field
possibly absent. -/
structure NormalizedOpt where
  type : Option TypeSpec
deriving DecidableEq, Repr

/-- A raw prop option value in the object form of a `props` declaration:
a constructor function, an array of constructors, or an already-normalized
plain record — `isFunction` / `isArray` / neither, in the source's
terms. -/
inductive RawOpt where
  | ctor (t : TypeTag)
  | ctorArray (ts : List TypeTag)
  | record (type : Option TypeSpec)
deriving DecidableEq, Repr

/-- A component's `props` declaration: array form (a list of names) or
keyed-object form. -/
inductive PropsDecl where
  | arrayForm (names : List String)
  | objectForm (entries : List (String × RawOpt))
deriving DecidableEq, Repr

/-- The value transform inside `normalizeProps`: wrap arrays and functions
in a `\x7btype\x7d` record, pass anything else through (lifted from
`@vue/runtime-core`, as the source notes). -/
def normalizeRawOpt : RawOpt → NormalizedOpt
  | RawOpt.ctor t => ⟨some (TypeSpec.single t)⟩
  | RawOpt.ctorArray ts => ⟨some (TypeSpec.many ts)⟩
  | RawOpt.record ty => ⟨ty⟩

/-- The Vue wrapper's `normalizeProps(propsObj)` (src/unnamed/part_000
lines 51-62): array-form and absent declarations return the empty object;
object-form declarations are mapped value-wise through the
`@vue/runtime-core` normalization with keys unchanged. -/
def normalizeProps : Option PropsDecl → List (String × NormalizedOpt)
  | none => []
  | some (PropsDecl.arrayForm _) => []
  | some (PropsDecl.objectForm entries) =>
    entries.map fun kv => (kv.1, normalizeRawOpt kv.2)

/-- `propsList` computed in `initialize()` (lines 81-83): the names of the
array form, or the keys of `options.props || \x7b\x7d`. -/
def propsList : Option PropsDecl → List String
  | none => []
  | some (PropsDecl.arrayForm names) => names
  | some (PropsDecl.objectForm entries) => keysOf entries

/-- `hyphenatedPropsList` computed in `initialize()`. -/
def hyphenatedPropsList (d : Option PropsDecl) : List String :=
  (propsList d).map hyphenate

/-- `camelizedPropsList` computed in `initialize()`. -/
def camelizedPropsList (d : Option PropsDecl) : List String :=
  (propsList d).map camelize

/-- `camelizedPropsMap` computed in `initialize()`: the normalized props
object re-keyed through `camelize`. -/
def camelizedPropsMap (d : Option PropsDecl) : List (String × NormalizedOpt) :=
  (normalizeProps d).map fun kv => (camelize kv.1, kv.2)

/-- State of one wrapped-Vue custom element instance, reduced to the fields
the claims consult: the `_props` mapping, the `_slotChildren` list, whether
`_component` exists, the `_mounted` flag, the DOM attributes, the direct
own properties of the element object (what `hasOwnProperty` sees), the
child nodes, and a trace of lifecycle-hook invocations. -/
structure VueElement where
  props : List (String × JsValue)
  slotChildren : List JsValue
  component : Bool
  mounted : Bool
  attrs : List (String × String)
  own : List (String × JsValue)
  childNodes : List JsValue
  hooks : List String

/-- DOM `setAttribute`. -/
def setAttr (attrs : List (String × String)) (k v : String) :
    List (String × String) :=
  setKey attrs k v

/-- DOM `removeAttribute`. -/
def removeAttr (attrs : List (String × String)) (k : String) :
    List (String × String) :=
  attrs.filter fun kv => kv.1 != k

/-- The Boolean case of the installed property setter: `newVal` itself when
it is already a boolean (`newVal === Boolean(newVal)`), otherwise the
`includes` test of `newVal` against `''`, `'true'` and the property's own
name (a non-string value cannot equal any of those strings). -/
def booleanCoerce (key : String) (newVal : JsValue) : Bool :=
  match newVal with
  | JsValue.bool b => b
  | JsValue.str s => s = "" || s = "true" || s = key
  | _ => false

/-- The property setter installed by `initialize()` on the custom-element
prototype for each camelized prop name `key` (src/unnamed/part_000 lines
92-129), a `switch` on `camelizedPropsMap[key]?.type`: the Boolean case
computes the coerced flag and reflects it onto the attribute (set to `''`
when true, removed when false); the Number case computes
`parseFloat(newVal)` into the local `value` and falls through to `break`,
storing nothing and touching no attribute; the String case re-sets the
attribute to the new value (the local `value` again unused); only the
`default` case writes `this._props[key]` and forces a re-render. -/
def propSetter (cpm : List (String × NormalizedOpt)) (key : String)
    (el : VueElement) (newVal : JsValue) : VueElement :=
  match (lookupKey cpm key).bind NormalizedOpt.type with
  | some (TypeSpec.single TypeTag.boolean) =>
    if booleanCoerce key newVal then
      { el with attrs := setAttr el.attrs key ("") }
    else
      { el with attrs := removeAttr el.attrs key }
  | some (TypeSpec.single TypeTag.number) =>
    let _value := jsParseFloat (jsValueToString newVal)
    el
  | some (TypeSpec.single TypeTag.stringTag) =>
    { el with attrs := setAttr el.attrs key (jsValueToString newVal) }
  | _ =>
    { el with props := setKey el.props key newVal }

/-- Modelled from the spec: `convertAttributeValue(value, name, option)`
from the repository's missing `./utils.js` module, following section 4.1 of
the spec (the value-to-store part of "Attribute/Property Coercion"):
Boolean is true for boolean `true` and for the strings `''`, `'true'` and
the property's own name, false otherwise; Number is the numeric parse of
the input; String and untyped (or any other declared type) pass the value
through. -/
def convertAttributeValue (value : JsValue) (name : String)
    (opt : Option NormalizedOpt) : JsValue :=
  match opt.bind NormalizedOpt.type with
  | some (TypeSpec.single TypeTag.boolean) =>
    JsValue.bool (match value with
      | JsValue.bool b => b
      | JsValue.str s => s = "" || s = "true" || s = name
      | _ => false)
  | some (TypeSpec.single TypeTag.number) =>
    JsValue.num (jsParseFloat (jsValueToString value))
  | _ => value

/-- Modelled from the spec: `getInitialProps(camelizedPropsList)` from the
missing `./utils.js`; the props mapping's key set is "derived once from the
component definition": one key per camelized declared prop name, each value
initially `undefined`. -/
def getInitialProps (names : List String) : List (String × JsValue) :=
  names.map fun n => (n, JsValue.undef)

/-- Modelled from the spec: `toVNodes(childNodes, createElement)` from the
missing `./utils.js`, which turns the current child DOM nodes into the
default slot content ("child DOM nodes at mount time become the rendered
default slot content"); the nodes themselves are opaque here. -/
def toVNodes (childNodes : List JsValue) : List JsValue :=
  childNodes

/-- Modelled from the spec together with the app options in the source
(lines 158-163): `callHooks(component, hook)` from the missing `./utils.js`
invokes the named lifecycle hooks of the wrapped app when the component
exists; the app's own `mounted` / `unmounted` options set
`self._mounted`. Each invocation is recorded on the hook trace. -/
def callHooks (el : VueElement) (hook : String) : VueElement :=
  if el.component then
    { el with
      hooks := el.hooks ++ [hook]
      mounted :=
        if hook = "mounted" then true
        else if hook = "unmounted" then false
        else el.mounted }
  else el

/-- `syncAttribute(key)` (src/unnamed/part_000 lines 204-218): reads the
value from a direct own property when present, else from the attribute when
present, else `undefined`; converts it under the camelized name's declared
option; and stores it into `_props[camelize(key)]` — with no test that the
name is a declared property — then forces a re-render. -/
def syncAttribute (cpm : List (String × NormalizedOpt)) (el : VueElement)
    (key : String) : VueElement :=
  let camelized := camelize key
  let value : JsValue :=
    match lookupKey el.own key with
    | some v => v
    | none =>
      match lookupKey el.attrs key with
      | some s => JsValue.str s
      | none => JsValue.undef
  let convertedValue := convertAttributeValue value key (lookupKey cpm camelized)
  { el with props := setKey el.props camelized convertedValue }

/-- `syncSlots()` (lines 220-226): re-derives `_slotChildren` from the
current child nodes and forces a re-render. -/
def syncSlots (el : VueElement) : VueElement :=
  { el with slotChildren := toVNodes el.childNodes }

/-- `syncInitialAttributes()` (lines 228-233): resets `_props` to the
initial mapping over the camelized prop names, then syncs every hyphenated
declared prop name. -/
def syncInitialAttributes (cpm : List (String × NormalizedOpt))
    (cpl hpl : List String) (el : VueElement) : VueElement :=
  let el1 := { el with props := getInitialProps cpl }
  hpl.foldl (fun e k => syncAttribute cpm e k) el1

/-- `connectedCallback()` (lines 235-250): when the component is missing or
not mounted, initialize the props from the current attributes (when the
shared per-type initialization already ran), re-derive the slot children,
and mount the wrapped app (whose `mounted` option sets `_mounted`);
otherwise only re-invoke the mounted hook. -/
def connectedCallback (isInitialized : Bool)
    (cpm : List (String × NormalizedOpt)) (cpl hpl : List String)
    (el : VueElement) : VueElement :=
  if !el.component || !el.mounted then
    let el1 := if isInitialized then syncInitialAttributes cpm cpl hpl el else el
    let el2 := syncSlots el1
    { el2 with component := true, mounted := true }
  else
    callHooks el "mounted"

/-- `disconnectedCallback()` (lines 252-254). -/
def disconnectedCallback (el : VueElement) : VueElement :=
  callHooks el "unmounted"

/-- One iteration of the MutationObserver loop in the Vue wrapper's
constructor (lines 167-184): an attribute record targeting the element
itself (once the shared initialization ran) goes through `syncAttribute`;
every other record only raises the local `hasChildrenChange` flag, whose
sole consumer — the `syncSlots()` call — is commented out in the source,
so those records change nothing. -/
def observerStep (isInitialized : Bool) (cpm : List (String × NormalizedOpt))
    (el : VueElement) (m : MutationRecord) : VueElement :=
  if isInitialized && m.type == MutationType.attributes && m.targetIsSelf then
    match m.attributeName with
    | some n => syncAttribute cpm el n
    | none => el
  else
    el

/-- The Vue wrapper's whole MutationObserver callback: the delivered batch
processed in order. -/
def observerCallback (isInitialized : Bool)
    (cpm : List (String × NormalizedOpt)) (el : VueElement)
    (ms : List MutationRecord) : VueElement :=
  ms.foldl (observerStep isInitialized cpm) el

/-- Modelled from the spec: `createCustomEvent(name, args)` from the
missing `./utils.js`: a `CustomEvent` of the given name whose `detail`
carries the original call arguments. -/
def createCustomEvent (name : String) (args : List JsValue) : CustomEventModel :=
  ⟨name, JsValue.arr args⟩

/-- The props key of one entry built by `createEventProxies` (lines
193-202) for a declared event name: `toHandlerKey(camelize(name))`. -/
def eventProxyKey (name : String) : String :=
  toHandlerKey (camelize name)

/-- The dispatch performed by that entry's handler when the wrapped
component invokes it with `args`: `createCustomEvent(name, args)` goes to
`dispatchEvent` on the host element under the original declared name. -/
def eventProxyDispatch (name : String) (args : List JsValue) : CustomEventModel :=
  createCustomEvent name args

/-- `createEventProxies(eventNames)` in full: the handler entries for all
declared event names, in order (`none` models a missing `emits`
declaration). -/
def createEventProxies (eventNames : Option (List String)) :
    List (String × (List JsValue → CustomEventModel)) :=
  match eventNames with
  | none => []
  | some names =>
    names.map fun name => (eventProxyKey name, eventProxyDispatch name)

/-- A concrete element state shared by the witnesses: one declared-prop key
in the props mapping, an existing mounted component, no attributes. -/
def sampleElement : VueElement :=
  { props := [(("count"), JsValue.undef)]
    slotChildren := []
    component := true
    mounted := true
    attrs := []
    own := []
    childNodes := []
    hooks := [] }

/-- Key set of a JS-object assignment: unchanged when the key is present,
extended by the key at the end otherwise. -/
theorem keysOf_setKey (l : List (String × α)) (k : String) (v : α) :
    keysOf (setKey l k v) =
      (if k ∈ keysOf l then keysOf l else keysOf l ++ [k]) := by
  induction l with
  | nil => simp [setKey, keysOf]
  | cons hd tl ih =>
    obtain ⟨k2, v2⟩ := hd
    by_cases h : k2 = k
    · subst h
      simp [setKey, keysOf]
    · have hne : ¬(k = k2) := fun hk => h hk.symm
      simp only [setKey, if_neg h, keysOf, List.map_cons] at ih ⊢
      rw [ih]
      by_cases hm : k ∈ List.map Prod.fst tl <;>
        simp [hm, hne, List.mem_cons]

/-- Claim C1: the source's property setter for a Number-typed property is
claimed to store `parseFloat` of the input in the props mapping; in fact
the Number case of the `switch` computes `parseFloat(newVal)` into a dead
local and `break`s, so the whole element state — props mapping included —
is left unchanged (the divergence behind the code_bug verdict). -/
theorem numberSetterStoresNothing (cpm : List (String × NormalizedOpt))
    (key : String) (el : VueElement) (newVal : JsValue)
    (h : (lookupKey cpm key).bind NormalizedOpt.type =
      some (TypeSpec.single TypeTag.number)) :
    propSetter cpm key el newVal = el := by
  unfold propSetter
  rw [h]

/-- Witness for [[numberSetterStoresNothing]]: assigning the string `42`
to a declared Number prop `count` leaves the element, and in particular
its props mapping, untouched. -/
theorem numberSetterStoresNothingWitness :
    propSetter
        [(("count"), NormalizedOpt.mk (some (TypeSpec.single TypeTag.number)))]
        ("count") sampleElement (JsValue.str ("42")) = sampleElement :=
  numberSetterStoresNothing _ _ _ _ rfl

/-- A component definition declaring the single Boolean prop `myProp`. -/
def exampleDecl : Option PropsDecl :=
  some (PropsDecl.objectForm [(("myProp"), RawOpt.ctor TypeTag.boolean)])

/-- A freshly initialized element of [[exampleDecl]] carrying one
undeclared attribute `other-attr`. -/
def exampleElement : VueElement :=
  { props := getInitialProps (camelizedPropsList exampleDecl)
    slotChildren := []
    component := true
    mounted := true
    attrs := [(("other-attr"), ("hello"))]
    own := []
    childNodes := []
    hooks := [] }

/-- Claim C2, counterexample: one observed mutation of the undeclared
attribute `other-attr` grows the props mapping's key set beyond the
camelized declared names — `syncAttribute` never checks that the name is
declared. -/
theorem propsKeySetGrowsOnUndeclaredAttribute :
    keysOf ((observerCallback true (camelizedPropsMap exampleDecl)
        exampleElement
        [⟨MutationType.attributes, true, some ("other-attr")⟩]).props) ≠
      camelizedPropsList exampleDecl := by
  decide

/-- Claim C2, amended: processing an attribute mutation through
`syncAttribute` extends the props mapping's key set with the camelized
attribute name whenever it is not already a key, and leaves the key set
unchanged exactly when it is (in particular for declared properties);
the key set is therefore not fixed at initialization. -/
theorem syncAttributeKeySet (cpm : List (String × NormalizedOpt))
    (el : VueElement) (key : String) :
    keysOf (syncAttribute cpm el key).props =
      (if camelize key ∈ keysOf el.props then keysOf el.props
       else keysOf el.props ++ [camelize key]) := by
  unfold syncAttribute
  exact keysOf_setKey el.props (camelize key) _

/-- Claim C3: assigning through the installed setter of a Boolean-typed
property yields true exactly for boolean `true` and the strings `''`,
`'true'` and the property's own name, and as its side effect sets the
attribute (to `''`) when the result is true and removes it when false. -/
theorem booleanSetterContract (cpm : List (String × NormalizedOpt))
    (key : String) (el : VueElement) (newVal : JsValue)
    (h : (lookupKey cpm key).bind NormalizedOpt.type =
      some (TypeSpec.single TypeTag.boolean)) :
    (booleanCoerce key newVal = true ↔
      (newVal = JsValue.bool true ∨ newVal = JsValue.str ("") ∨
       newVal = JsValue.str ("true") ∨ newVal = JsValue.str key)) ∧
    propSetter cpm key el newVal =
      (if booleanCoerce key newVal then
        { el with attrs := setAttr el.attrs key ("") }
      else
        { el with attrs := removeAttr el.attrs key }) := by
  constructor
  · cases newVal <;> simp [booleanCoerce]
    tauto
  · unfold propSetter
    rw [h]

/-- Witness for [[booleanSetterContract]]: the declared Boolean prop
`selected` assigned the string `true` coerces to true and sets the
attribute. -/
theorem booleanSetterContractWitness :
    (booleanCoerce ("selected") (JsValue.str ("true")) = true ↔
      (JsValue.str ("true") = JsValue.bool true ∨
       JsValue.str ("true") = JsValue.str ("") ∨
       JsValue.str ("true") = JsValue.str ("true") ∨
       JsValue.str ("true") = JsValue.str ("selected"))) ∧
    propSetter
        [(("selected"), NormalizedOpt.mk (some (TypeSpec.single TypeTag.boolean)))]
        ("selected") sampleElement (JsValue.str ("true")) =
      (if booleanCoerce ("selected") (JsValue.str ("true")) then
        { sampleElement with attrs := setAttr sampleElement.attrs ("selected") ("") }
      else
        { sampleElement with attrs := removeAttr sampleElement.attrs ("selected") }) :=
  booleanSetterContract _ _ _ _ rfl

/-- Claim C4, counterexample: the React wrapper's `convert` does raise —
the attribute string `\x7bbad\x7d` matches the JSON-looking regex and
`JSON.parse` throws a SyntaxError on it, modelled by the `error` result. -/
theorem convertThrowsOnMalformedJson :
    convert ("x") ("{bad}") = Except.error () := by
  rfl

/-- Claim C4, amended: the React wrapper's `convert` returns a value —
silently malformed where need be — for every input except the
JSON-throwing corner: it raises exactly when the string is none of
`'true'`/`'false'`, fails the numeric test (`isNaN`, or is empty), matches
the JSON-looking regex, and is not valid JSON. Malformed numeric strings in
particular pass through silently, and the Vue-side coercion
(`convertAttributeValue`) is a plain value-returning function with no error
case at all. -/
theorem convertErrorCharacterization (name v : String) :
    convert name v = Except.error () ↔
      (v ≠ "true" ∧ v ≠ "false" ∧
       (jsIsNaN (jsNumberOfString v) = true ∨ v = "") ∧
       jsonLikeRegex v = true ∧ jsonParse v = none) := by
  unfold convert
  split_ifs with h1 h2 h3
  · simp only [Bool.or_eq_true, decide_eq_true_eq] at h1
    simp only [reduceCtorEq, false_iff]
    tauto
  · simp only [Bool.and_eq_true, Bool.not_eq_true', decide_eq_true_eq] at h2
    simp only [reduceCtorEq, false_iff]
    intro hc
    rcases hc with ⟨_, _, hnum, _, _⟩
    rcases hnum with hnum | hnum
    · rw [h2.1] at hnum
      exact Bool.false_ne_true hnum
    · exact h2.2 hnum
  · simp only [Bool.or_eq_true, decide_eq_true_eq, not_or] at h1
    simp only [Bool.and_eq_true, Bool.not_eq_true', decide_eq_true_eq,
      not_and_or, Bool.not_eq_false, not_not] at h2
    rcases hjp : jsonParse v with _ | jv
    · simp only [hjp, true_iff]
      refine ⟨h1.1, h1.2, ?_, h3, trivial⟩
      rcases h2 with h2 | h2
      · exact Or.inl h2
      · exact Or.inr (by simpa using h2)
    · simp only [hjp, reduceCtorEq, false_iff]
      intro hc
      exact hc.2.2.2.2.elim
  · simp only [reduceCtorEq, false_iff]
    intro hc
    exact h3 hc.2.2.2.1
/-- Claim C5, counterexample: the React wrapper's event callback does not
carry its argument as the `detail` payload when that argument is not a
plain object — invoked with the number `5`, the dispatched detail is the
empty object `\x7b...5\x7d = \x7b\x7d`, not `5`. -/
theorem reactCallbackDetailSpreadCounterexample :
    (getEventCallback ("selectMe") (JsValue.num (JNum.val 5))).detail ≠
      JsValue.num (JNum.val 5) := by
  simp [getEventCallback, spreadToObj]

/-- Claim C5, amended: for every declared event name, the Vue wrapper's
proxy entry (keyed `toHandlerKey(camelize(name))`) dispatches on the host a
`CustomEvent` named with the original declared name whose detail is the
full argument list; the React wrapper's callback dispatches a `CustomEvent`
of the given event name whose detail is the object-spread copy of its
first argument only — equal to that argument exactly when it is a plain
object. -/
theorem eventProxiesDispatchContract (names : List String) (name : String)
    (hmem : name ∈ names) (args : List JsValue) (payload : JsValue) :
    (∃ h, (toHandlerKey (camelize name), h) ∈ createEventProxies (some names) ∧
      h args = CustomEventModel.mk name (JsValue.arr args)) ∧
    getEventCallback name payload =
      CustomEventModel.mk name (JsValue.obj (spreadToObj payload)) ∧
    (∀ fields, getEventCallback name (JsValue.obj fields) =
      CustomEventModel.mk name (JsValue.obj fields)) := by
  refine ⟨⟨eventProxyDispatch name, ?_, rfl⟩, rfl, fun fields => rfl⟩
  unfold createEventProxies
  exact List.mem_map.mpr ⟨name, hmem, rfl⟩

/-- Witness for [[eventProxiesDispatchContract]]: the declared event
`select-me`, dispatched with one object argument. -/
theorem eventProxiesDispatchContractWitness :
    (∃ h, (toHandlerKey (camelize ("select-me")), h) ∈
        createEventProxies (some [("select-me")]) ∧
      h [JsValue.num (JNum.val 1)] =
        CustomEventModel.mk ("select-me")
          (JsValue.arr [JsValue.num (JNum.val 1)])) ∧
    getEventCallback ("select-me")
        (JsValue.obj [(("id"), JsValue.num (JNum.val 1))]) =
      CustomEventModel.mk ("select-me")
        (JsValue.obj (spreadToObj (JsValue.obj [(("id"), JsValue.num (JNum.val 1))]))) ∧
    (∀ fields, getEventCallback ("select-me") (JsValue.obj fields) =
      CustomEventModel.mk ("select-me") (JsValue.obj fields)) :=
  eventProxiesDispatchContract [("select-me")] ("select-me")
    (List.mem_singleton.mpr rfl) [JsValue.num (JNum.val 1)]
    (JsValue.obj [(("id"), JsValue.num (JNum.val 1))])

/-- Claim C6: running `connectedCallback` on an element whose component
exists and is still mounted skips prop initialization and slot re-sync —
props and slot children are unchanged — and only invokes the mounted
hook. -/
theorem reconnectSkipsResync (isInit : Bool)
    (cpm : List (String × NormalizedOpt)) (cpl hpl : List String)
    (el : VueElement) (hc : el.component = true) (hm : el.mounted = true) :
    (connectedCallback isInit cpm cpl hpl el).props = el.props ∧
    (connectedCallback isInit cpm cpl hpl el).slotChildren = el.slotChildren ∧
    (connectedCallback isInit cpm cpl hpl el).hooks = el.hooks ++ [("mounted")] := by
  unfold connectedCallback
  simp [hc, hm, callHooks]

/-- Witness for [[reconnectSkipsResync]] on the concrete
[[sampleElement]], whose component exists and is mounted. -/
theorem reconnectSkipsResyncWitness :
    (connectedCallback true [] [] [] sampleElement).props = sampleElement.props ∧
    (connectedCallback true [] [] [] sampleElement).slotChildren =
      sampleElement.slotChildren ∧
    (connectedCallback true [] [] [] sampleElement).hooks =
      sampleElement.hooks ++ [("mounted")] :=
  reconnectSkipsResync true [] [] [] sampleElement rfl rfl

/-- Claim C7: a MutationObserver batch holding only child-list or
character-data records is a no-op for the Vue wrapper — the records fall
into the `hasChildrenChange` arm whose `syncSlots()` consumer is commented
out, so the element state (props mapping and slot children included) is
unchanged. -/
theorem childOnlyMutationBatchIsNoOp (isInit : Bool)
    (cpm : List (String × NormalizedOpt)) (el : VueElement)
    (ms : List MutationRecord)
    (h : ∀ m ∈ ms, m.type = MutationType.childList ∨
      m.type = MutationType.characterData) :
    observerCallback isInit cpm el ms = el := by
  revert h
  induction ms generalizing el with
  | nil => intro _; rfl
  | cons m rest ih =>
    intro h
    have hm := h m (List.mem_cons_self m rest)
    have hstep : observerStep isInit cpm el m = el := by
      rcases hm with hm | hm <;> simp [observerStep, hm]
    show List.foldl (observerStep isInit cpm) el (m :: rest) = el
    rw [List.foldl_cons, hstep]
    exact ih el (fun m2 hm2 => h m2 (List.mem_cons_of_mem m hm2))

/-- Witness for [[childOnlyMutationBatchIsNoOp]]: a concrete batch of one
child-list and one character-data record on [[sampleElement]]. -/
theorem childOnlyMutationBatchIsNoOpWitness :
    observerCallback true [] sampleElement
      [⟨MutationType.childList, true, none⟩,
       ⟨MutationType.characterData, false, none⟩] = sampleElement :=
  childOnlyMutationBatchIsNoOp true [] sampleElement _ (by decide)

/-- Claim C8, counterexample: the property normalizer maps the array form
to the empty object, so a declared name of the array form has no entry at
all in the result. -/
theorem normalizePropsDropsArrayForm :
    normalizeProps (some (PropsDecl.arrayForm [("foo")])) = [] ∧
    lookupKey (normalizeProps (some (PropsDecl.arrayForm [("foo")]))) ("foo") =
      none :=
  ⟨rfl, rfl⟩

/-- Claim C8, amended: `normalizeProps` returns a mapping from each
declared property name to its normalized option only for the keyed-object
form — keys preserved, constructor and constructor-array options wrapped
into `\x7btype\x7d` records, plain records passed through — while the
array form and an absent declaration both yield the empty mapping. -/
theorem normalizePropsContract (entries : List (String × RawOpt))
    (names : List String) :
    normalizeProps (some (PropsDecl.objectForm entries)) =
      entries.map (fun kv => (kv.1, normalizeRawOpt kv.2)) ∧
    keysOf (normalizeProps (some (PropsDecl.objectForm entries))) =
      keysOf entries ∧
    normalizeProps (some (PropsDecl.arrayForm names)) = [] ∧
    normalizeProps (none : Option PropsDecl) = [] ∧
    (∀ t, normalizeRawOpt (RawOpt.ctor t) =
      NormalizedOpt.mk (some (TypeSpec.single t))) ∧
    (∀ ts, normalizeRawOpt (RawOpt.ctorArray ts) =
      NormalizedOpt.mk (some (TypeSpec.many ts))) := by
  refine ⟨rfl, ?_, rfl, rfl, fun t => rfl, fun ts => rfl⟩
  simp [normalizeProps, keysOf]

/-- Claim C9: the React wrapper's `convert` passes the empty attribute
string through unchanged as the empty string — the `attrValue !== ''`
conjunct skips the numeric branch (even though `isNaN('')` is false, which
would otherwise coerce it to the number `0`), and `''` is neither a boolean
literal nor JSON-looking. -/
theorem convertPassesEmptyStringThrough (name : String) :
    convert name ("") = Except.ok ⟨name, JsValue.str ("")⟩ :=
  rfl

/-- Claim C10: every delivered MutationObserver batch on a React-wrapped
element triggers `update()`, which first fully unmounts the wrapped
component (`unmountComponentAtNode`) and then mounts a fresh instance whose
props are re-derived from the element's current attributes, events and
innerHTML — never a re-render of the existing instance in place. -/
theorem attributeMutationRemountsFreshInstance (records : List MutationRecord)
    (el : ReactElement) (props : List (String × JsValue))
    (h : reactMountProps el = Except.ok props) :
    reactObserverCallback records el =
      Except.ok { el with trace := el.trace ++
        [ReactAction.unmountAtNode, ReactAction.renderComponent props] } := by
  have h2 : reactMountProps
      { el with trace := el.trace ++ [ReactAction.unmountAtNode] } =
      Except.ok props := h
  simp only [reactObserverCallback, reactUpdate, reactUnmount, reactMount,
    bind, Except.bind, h2, pure, Except.pure, List.append_assoc,
    List.singleton_append]

/-- A concrete React host element used by the witness: one plain attribute
and one event-like attribute, plus some innerHTML. -/
def reactSampleElement : ReactElement :=
  { attributes := [(("greeting"), ("hola")), (("onselect"), (""))]
    innerHTML := "hi"
    trace := [] }

/-- Witness for [[attributeMutationRemountsFreshInstance]]: on
[[reactSampleElement]] the observer callback unmounts and re-renders with
the freshly derived props. -/
theorem attributeMutationRemountsFreshInstanceWitness :
    reactObserverCallback [] reactSampleElement =
      Except.ok { reactSampleElement with trace := reactSampleElement.trace ++
        [ReactAction.unmountAtNode,
         ReactAction.renderComponent
          [(("greeting"), JsValue.str ("hola")),
           (("onselect"), JsValue.callback ("onselect")),
           (("children"), JsValue.str ("hi"))]] } :=
  attributeMutationRemountsFreshInstance [] reactSampleElement _ (by rfl)

end CEWrap
